import Mathlib

/-!
Verification development for the process-manager web application in `src/app.py`.

The application keeps a persisted JSON mapping (`process_state.json`) from script
file names to OS process identifiers, and exposes routes that start, stop, delete
and observe the managed scripts.  This file gives a shallow embedding of the
process-lifecycle core:

* the persisted registry is an association list `Registry := List (String × Int)`
  (a parsed JSON object with integer values; a stored JSON `null` behaves exactly
  like `0` under Python truthiness, so `0` stands for every falsy stored value);
* the OS process table is an observation oracle `OSTable : Int → Option OSProc`
  (`none` models `psutil.NoSuchProcess`);
* the filesystem pieces that the routes touch are collected in `World`:
  the registry file (`none` = file absent, `some none` = present but `json.load`
  raises, `some (some r)` = parses to `r`), the scripts directory listing and
  the log directory listing;
* the OS interactions performed by `stop` (signal deliveries, the grace-period
  sleep) are recorded as a trace of `Act` values, and their outcomes (a signal
  delivery raising, the process surviving the grace period) are supplied by a
  `StopOracle`;
* `subprocess.Popen` in `start` either yields a fresh pid or raises, supplied as
  a `SpawnResult`.

Each definition cites the lines of `src/app.py` it embeds.
-/

/-- A JSON document, as produced by a successful `json.load` of the registry
file.  Numbers are restricted to integers, which covers every pid value. -/
inductive Json where
  | null
  | bool (b : Bool)
  | num (n : Int)
  | str (s : String)
  | arr (elems : List Json)
  | obj (entries : List (String × Json))

/-- Lines 23-30 of `app.py` at the level of raw JSON documents: if the file is
absent, or present but `json.load` raises (the bare `except`), return the empty
object `{}`; otherwise return whatever document was parsed, unchecked. -/
def load_state_json (pidFile : Option (Option Json)) : Json :=
  match pidFile with
  | none => Json.obj []
  | some none => Json.obj []
  | some (some j) => j

/-- The process registry: the parsed `process_state.json` object, an association
list from script name to stored pid. -/
abbrev Registry := List (String × Int)

namespace Registry

/-- Python `state.get(k)`: the value stored at key `k`, if any. -/
def get : Registry → String → Option Int
  | [], _ => none
  | (k, v) :: r, key => if k = key then some v else get r key

/-- Python `del state[k]`: drop the binding of key `k`. -/
def erase : Registry → String → Registry
  | [], _ => []
  | (k, v) :: r, key => if k = key then erase r key else (k, v) :: erase r key

/-- Python `state[k] = v`: update the binding of `k`, or append a new one. -/
def insert : Registry → String → Int → Registry
  | [], key, val => [(key, val)]
  | (k, v) :: r, key, val =>
      if k = key then (key, val) :: r else (k, v) :: insert r key val

end Registry

/-- Python truthiness of a looked-up pid: `None` (key absent or stored null) and
`0` are falsy, every other integer is truthy. -/
def pyTruthy : Option Int → Bool
  | none => false
  | some n => n != 0

/-- What the OS reports for one pid: a zombie/defunct process, or a live process
together with its CPU percentage and resident memory (abstract units). -/
inductive OSProc where
  | zombie
  | running (cpu : Nat) (mem : Nat)
deriving DecidableEq

/-- The OS process table as seen by one observation pass; `none` models
`psutil.NoSuchProcess`. -/
abbrev OSTable := Int → Option OSProc

/-- Lines 36-43: `get_process_info(pid)` returns a `(status, cpu, mem)` triple;
a missing process (`psutil.NoSuchProcess`) yields `("Stopped", 0, 0)`, a zombie
yields `("Zombie", 0, 0)`, and a live process yields `"Running"` with fresh
CPU/memory readings. -/
def get_process_info (os : OSTable) (pid : Int) : String × Nat × Nat :=
  match os pid with
  | some OSProc.zombie => (("Zombie"), 0, 0)
  | some (OSProc.running cpu mem) => (("Running"), cpu, mem)
  | none => (("Stopped"), 0, 0)

/-- The filesystem/OS state the routes read and write: the registry file
(`PID_FILE`), the OS process table, the scripts directory listing and the logs
directory listing. -/
structure World where
  pidFile : Option (Option Registry)
  os : OSTable
  scripts : List String
  logFiles : List String

/-- Lines 23-30 specialised to the well-typed registry documents the rest of
the routes manipulate: absent or unparseable content loads as the empty
mapping. -/
def load_state (pidFile : Option (Option Registry)) : Registry :=
  match pidFile with
  | none => []
  | some none => []
  | some (some state) => state

/-- Lines 32-34: `save_state` overwrites `PID_FILE` with the serialised
mapping. -/
def save_state (state : Registry) : Option (Option Registry) :=
  some (some state)

/-- One entry of the `scripts_data` table rendered by `index` and `logs`;
`pid := none` is the `"-"` shown for a falsy pid. -/
structure Row where
  name : String
  status : String
  pid : Option Int
  cpu : Nat
  mem : Nat
deriving DecidableEq

/-- Python `f.endswith(".py")` (line 50 and line 185): the file name ends with
the `.py` suffix, computed on the underlying character list. -/
def endsWithPy (f : String) : Bool :=
  List.isSuffixOf (".py").data f.data

/-- Insertion into a sorted list of names, used to model Python `sorted`. -/
def insertSorted (x : String) : List String → List String
  | [] => [x]
  | y :: ys => if x < y then x :: y :: ys else y :: insertSorted x ys

/-- Python `sorted(...)` over script names. -/
def sortScripts (l : List String) : List String :=
  l.foldr insertSorted []

/-- Lines 51-68: one iteration of the reconciliation loop in `index`.  For a
truthy stored pid the OS is queried; a `"Stopped"` answer deletes the entry
(the `if f in state: del state[f]` guard); the rendered row carries the stored
pid.  A falsy pid short-circuits to a `"Stopped"` row with pid shown as
`"-"`. -/
def reconcileStep (os : OSTable) (acc : Registry × List Row) (f : String) :
    Registry × List Row :=
  let pid := Registry.get acc.1 f
  if pyTruthy pid then
    let p := pid.getD 0
    let info := get_process_info os p
    let state1 :=
      if info.1 = ("Stopped") then
        (if (Registry.get acc.1 f).isSome then Registry.erase acc.1 f else acc.1)
      else acc.1
    (state1, acc.2 ++ [⟨f, info.1, some p, info.2.1, info.2.2⟩])
  else
    (acc.1, acc.2 ++ [⟨f, ("Stopped"), none, 0, 0⟩])

/-- Lines 45-70: the `index` route.  Load the registry, reconcile every `.py`
file of the scripts directory (in sorted order), then persist the possibly
pruned mapping with `save_state`. -/
def index (w : World) : List Row × World :=
  let state := load_state w.pidFile
  let files := sortScripts (w.scripts.filter (fun f => endsWithPy f))
  let res := files.foldl (reconcileStep w.os) (state, [])
  (res.2, { w with pidFile := save_state res.1 })

/-- Lines 186-190: one row of the scripts table rendered by the `logs` route;
identical per-row computation to `index`, but with no mutation of the
mapping. -/
def logsRow (os : OSTable) (state : Registry) (f : String) : Row :=
  let pid := Registry.get state f
  if pyTruthy pid then
    let info := get_process_info os (pid.getD 0)
    ⟨f, info.1, some (pid.getD 0), info.2.1, info.2.2⟩
  else ⟨f, ("Stopped"), none, 0, 0⟩

/-- Lines 168-197: the `logs` route.  It loads the registry and renders the
same reconciliation table as `index`, but it never deletes an entry and never
calls `save_state`; the world is returned unchanged.  (The displayed log-file
text is presentation only and is not modelled.) -/
def logs (w : World) : List Row × World :=
  let state := load_state w.pidFile
  let files := sortScripts (w.scripts.filter (fun f => endsWithPy f))
  (files.map (logsRow w.os state), w)

/-- Outcomes of the OS interactions inside `stop`: whether
`os.kill(pid, SIGTERM)` returns normally (rather than raising, e.g. `ESRCH` or
`EPERM`), and whether `psutil.pid_exists(pid)` holds after the one-second
grace period. -/
structure StopOracle where
  sigtermOk : Bool
  existsAfterGrace : Bool

/-- The externally visible OS/filesystem actions attempted by `stop` and
`delete_script`, in program order. -/
inductive Act where
  | sigterm (pid : Int)
  | sleep1
  | sigkill (pid : Int)
  | rmScript (name : String)
  | rmLog (name : String)
  | rmEntry (name : String)
  | save
deriving DecidableEq

/-- Lines 133-147: the `stop` route.  A falsy looked-up pid skips everything.
Otherwise: `os.kill(pid, SIGTERM)`; if that returns, `time.sleep(1)` and, when
the process still exists, `os.kill(pid, SIGKILL)`; any exception in this block
is swallowed by the bare `except: pass`.  In all truthy cases the entry is then
deleted and the registry saved.  The returned list is the trace of attempted
actions. -/
def stop (w : World) (o : StopOracle) (script_name : String) : World × List Act :=
  let state := load_state w.pidFile
  let pid := Registry.get state script_name
  if pyTruthy pid then
    let p := pid.getD 0
    let sigActs :=
      if o.sigtermOk then
        Act.sigterm p :: Act.sleep1 ::
          (if o.existsAfterGrace then [Act.sigkill p] else [])
      else [Act.sigterm p]
    ({ w with pidFile := save_state (Registry.erase state script_name) },
      sigActs ++ [Act.rmEntry script_name, Act.save])
  else (w, [])

/-- The result of `subprocess.Popen` in `start`: a fresh pid, or an exception
(missing file, bad interpreter, permission error). -/
inductive SpawnResult where
  | ok (pid : Int)
  | err
deriving DecidableEq

/-- How a `start` call returns to the HTTP layer: a normal redirect, or an
uncaught exception propagating to the caller. -/
inductive StartOutcome where
  | redirect
  | raised
deriving DecidableEq

/-- Result of the `start` route: the world afterwards, how control returned,
and whether `subprocess.Popen` was ever invoked. -/
structure StartResult where
  world : World
  outcome : StartOutcome
  spawnAttempted : Bool

/-- Line 118: the guard `script_name in state and
get_process_info(state[script_name])[0] == "Running"`. -/
def already_running (os : OSTable) (state : Registry) (script_name : String) : Bool :=
  match Registry.get state script_name with
  | some p => (get_process_info os p).1 == ("Running")
  | none => false

/-- Lines 112-131: the `start` route.  If the guard of line 118 holds, redirect
with no side effect at all.  Otherwise `open(log_path, "a")` creates the log
file if missing, then `Popen` runs: on failure the exception propagates (there
is no `try` around it) and the registry is never written; on success the new
pid is recorded and the registry saved. -/
def start (w : World) (spawn : SpawnResult) (script_name : String) : StartResult :=
  let state := load_state w.pidFile
  if already_running w.os state script_name then
    ⟨w, StartOutcome.redirect, false⟩
  else
    let logName := script_name ++ (".log")
    let w1 := { w with logFiles :=
      if logName ∈ w.logFiles then w.logFiles else w.logFiles ++ [logName] }
    match spawn with
    | SpawnResult.err => ⟨w1, StartOutcome.raised, true⟩
    | SpawnResult.ok p =>
        ⟨{ w1 with pidFile := save_state (Registry.insert state script_name p) },
          StartOutcome.redirect, true⟩

/-- Lines 156-157 of `delete_script`: `if os.path.exists(script_path):
os.remove(script_path)`. -/
def remove_script_file (w : World) (script_name : String) : World :=
  if script_name ∈ w.scripts then
    { w with scripts := w.scripts.filter (fun x => x != script_name) }
  else w

/-- The trace of lines 156-157. -/
def remove_script_file_acts (w : World) (script_name : String) : List Act :=
  if script_name ∈ w.scripts then [Act.rmScript script_name] else []

/-- Lines 158-159 of `delete_script`: `if os.path.exists(log_path):
os.remove(log_path)`, where `log_path` is `f"{script_name}.log"`. -/
def remove_log_file (w : World) (script_name : String) : World :=
  let logName := script_name ++ (".log")
  if logName ∈ w.logFiles then
    { w with logFiles := w.logFiles.filter (fun x => x != logName) }
  else w

/-- The trace of lines 158-159. -/
def remove_log_file_acts (w : World) (script_name : String) : List Act :=
  if (script_name ++ (".log")) ∈ w.logFiles then [Act.rmLog script_name] else []

/-- Lines 161-164 of `delete_script`: reload the registry and, if the name is
still a key (`if script_name in state`), delete it and save. -/
def registry_cleanup (w : World) (script_name : String) : World :=
  let state := load_state w.pidFile
  if (Registry.get state script_name).isSome then
    { w with pidFile := save_state (Registry.erase state script_name) }
  else w

/-- The trace of lines 161-164. -/
def registry_cleanup_acts (w : World) (script_name : String) : List Act :=
  if (Registry.get (load_state w.pidFile) script_name).isSome then
    [Act.rmEntry script_name, Act.save]
  else []

/-- Lines 149-166: the `delete_script` route: call `stop`, then remove the
script file, then remove its log file, then drop any residual registry
entry. -/
def delete_script (w : World) (o : StopOracle) (script_name : String) :
    World × List Act :=
  let r1 := stop w o script_name
  let w2 := remove_script_file r1.1 script_name
  let w3 := remove_log_file w2 script_name
  let w4 := registry_cleanup w3 script_name
  (w4,
    r1.2 ++ (remove_script_file_acts r1.1 script_name
      ++ remove_log_file_acts w2 script_name
      ++ registry_cleanup_acts w3 script_name))

/-- A looked-up pid is stale when it is truthy and the OS query answers
`"Stopped"`; these are exactly the entries the `index` loop deletes. -/
def stale (os : OSTable) (pid : Option Int) : Prop :=
  pyTruthy pid = true ∧ (get_process_info os (pid.getD 0)).1 = ("Stopped")

instance (os : OSTable) (pid : Option Int) : Decidable (stale os pid) := by
  unfold stale; infer_instance

/-- The row rendered for one script, as a function of its looked-up pid. -/
def rowOf (os : OSTable) (f : String) (pid : Option Int) : Row :=
  if pyTruthy pid then
    ⟨f, (get_process_info os (pid.getD 0)).1, some (pid.getD 0),
      (get_process_info os (pid.getD 0)).2.1, (get_process_info os (pid.getD 0)).2.2⟩
  else ⟨f, ("Stopped"), none, 0, 0⟩

/-! ### Registry lemmas -/

namespace Registry

theorem get_erase (r : Registry) (k k1 : String) :
    get (erase r k) k1 = if k1 = k then none else get r k1 := by
  induction r with
  | nil => simp [erase, get]
  | cons a r ih =>
    obtain ⟨ak, av⟩ := a
    simp only [erase]
    by_cases hak : ak = k
    · simp only [if_pos hak, ih]
      by_cases h1 : k1 = k
      · simp [h1]
      · have hne : ak ≠ k1 := by rw [hak]; exact fun hh => h1 hh.symm
        simp [get, h1, hne]
    · simp only [if_neg hak]
      by_cases h1 : k1 = k
      · subst h1
        simp [get, hak, ih]
      · simp [get, ih, h1]

end Registry

/-! ### Truthiness and staleness lemmas -/

theorem pyTruthy_some_iff {n : Int} : pyTruthy (some n) = true ↔ n ≠ 0 := by
  simp [pyTruthy]

theorem pyTruthy_isSome {pid : Option Int} (h : pyTruthy pid = true) :
    pid.isSome = true := by
  cases pid <;> simp_all [pyTruthy]

theorem stale_none (os : OSTable) : ¬ stale os none := by
  simp [stale, pyTruthy]

/-! ### Reconciliation-loop lemmas for `index` -/

theorem reconcileStep_fst_get (os : OSTable) (s : Registry) (rs : List Row)
    (f k : String) :
    Registry.get (reconcileStep os (s, rs) f).1 k
      = if k = f ∧ stale os (Registry.get s f) then none
        else Registry.get s k := by
  by_cases ht : pyTruthy (Registry.get s f) = true
  · by_cases hs : (get_process_info os ((Registry.get s f).getD 0)).1 = ("Stopped")
    · have hst : stale os (Registry.get s f) := ⟨ht, hs⟩
      have hsome := pyTruthy_isSome ht
      simp only [reconcileStep, ht, if_true, hs, if_pos, hsome, Registry.get_erase]
      by_cases hk : k = f <;> simp [hk, hst]
    · have hst : ¬ stale os (Registry.get s f) := fun hh => hs hh.2
      simp [reconcileStep, ht, hs, hst]
  · have hst : ¬ stale os (Registry.get s f) := fun hh => ht hh.1
    simp [reconcileStep, ht, hst]

theorem reconcileStep_snd (os : OSTable) (s : Registry) (rs : List Row)
    (f : String) :
    (reconcileStep os (s, rs) f).2 = rs ++ [rowOf os f (Registry.get s f)] := by
  by_cases ht : pyTruthy (Registry.get s f) = true <;>
    simp [reconcileStep, rowOf, ht]

theorem reconcile_snd_mono (os : OSTable) (files : List String) (s : Registry)
    (rs : List Row) (r : Row) (hr : r ∈ rs) :
    r ∈ (files.foldl (reconcileStep os) (s, rs)).2 := by
  induction files generalizing s rs with
  | nil => simpa using hr
  | cons f files ih =>
    simp only [List.foldl_cons]
    have hr1 : r ∈ (reconcileStep os (s, rs) f).2 := by
      rw [reconcileStep_snd]; exact List.mem_append_left _ hr
    exact ih (reconcileStep os (s, rs) f).1 (reconcileStep os (s, rs) f).2 hr1

theorem reconcile_fst_get (os : OSTable) (files : List String) (s : Registry)
    (rs : List Row) (k : String) :
    Registry.get (files.foldl (reconcileStep os) (s, rs)).1 k
      = if k ∈ files ∧ stale os (Registry.get s k) then none
        else Registry.get s k := by
  induction files generalizing s rs with
  | nil => simp
  | cons f files ih =>
    simp only [List.foldl_cons]
    have ih1 := ih (reconcileStep os (s, rs) f).1 (reconcileStep os (s, rs) f).2
    have hstep := reconcileStep_fst_get os s rs f k
    rw [show ((reconcileStep os (s, rs) f).1, (reconcileStep os (s, rs) f).2)
        = reconcileStep os (s, rs) f from rfl] at ih1
    rw [ih1, hstep]
    by_cases hk : k = f
    · subst hk
      by_cases hst : stale os (Registry.get s k)
      · simp [hst, stale_none os, List.mem_cons]
      · simp [hst, List.mem_cons]
    · simp [hk, List.mem_cons]

theorem reconcile_row_mem (os : OSTable) (files : List String) (s : Registry)
    (rs : List Row) (f : String) (hf : f ∈ files) :
    rowOf os f (Registry.get s f) ∈ (files.foldl (reconcileStep os) (s, rs)).2 := by
  induction files generalizing s rs with
  | nil => cases hf
  | cons g files ih =>
    simp only [List.foldl_cons]
    by_cases hg : f = g
    · subst hg
      have hr : rowOf os f (Registry.get s f) ∈ (reconcileStep os (s, rs) f).2 := by
        rw [reconcileStep_snd]
        exact List.mem_append_right _ (by simp)
      exact reconcile_snd_mono os files (reconcileStep os (s, rs) f).1
        (reconcileStep os (s, rs) f).2 _ hr
    · have hf1 : f ∈ files := by
        rcases List.mem_cons.1 hf with h | h
        · exact absurd h hg
        · exact h
      have h1 : Registry.get (reconcileStep os (s, rs) g).1 f = Registry.get s f := by
        rw [reconcileStep_fst_get]; simp [hg]
      have h2 := ih (reconcileStep os (s, rs) g).1 (reconcileStep os (s, rs) g).2 hf1
      rw [h1] at h2
      exact h2

/-! ### Sorted-listing lemmas -/

theorem mem_insertSorted {x a : String} {l : List String} :
    a ∈ insertSorted x l ↔ a = x ∨ a ∈ l := by
  induction l with
  | nil => simp [insertSorted]
  | cons y ys ih =>
    by_cases h : x < y
    · simp [insertSorted, h, List.mem_cons]
    · simp only [insertSorted, if_neg h, List.mem_cons, ih]
      tauto

theorem mem_sortScripts {a : String} {l : List String} :
    a ∈ sortScripts l ↔ a ∈ l := by
  induction l with
  | nil => simp [sortScripts]
  | cons y ys ih =>
    simp only [sortScripts, List.foldr_cons] at ih ⊢
    rw [mem_insertSorted, ih]
    simp [List.mem_cons]

theorem mem_script_files {w : World} {f : String}
    (hs : f ∈ w.scripts) (he : endsWithPy f = true) :
    f ∈ sortScripts (w.scripts.filter (fun g => endsWithPy g)) := by
  rw [mem_sortScripts]
  exact List.mem_filter.2 ⟨hs, he⟩

/-! ### `stop` lemmas -/

theorem stop_noop {w : World} {o : StopOracle} {name : String}
    (h : pyTruthy (Registry.get (load_state w.pidFile) name) = false) :
    stop w o name = (w, []) := by
  simp [stop, h]

theorem stop_truthy_pidFile {w : World} {o : StopOracle} {name : String}
    (h : pyTruthy (Registry.get (load_state w.pidFile) name) = true) :
    (stop w o name).1.pidFile
      = save_state (Registry.erase (load_state w.pidFile) name) := by
  simp [stop, h]

theorem stop_truthy_trace {w : World} {o : StopOracle} {name : String} {p : Int}
    (hp : Registry.get (load_state w.pidFile) name = some p) (hp0 : p ≠ 0) :
    (stop w o name).2
      = (if o.sigtermOk then
            Act.sigterm p :: Act.sleep1 ::
              (if o.existsAfterGrace then [Act.sigkill p] else [])
          else [Act.sigterm p]) ++ [Act.rmEntry name, Act.save] := by
  have hps : pyTruthy (some p) = true := pyTruthy_some_iff.2 hp0
  simp [stop, hp, hps]

theorem stop_get_none {w : World} {o : StopOracle} {name : String}
    (h : pyTruthy (Registry.get (load_state w.pidFile) name) = true) :
    Registry.get (load_state (stop w o name).1.pidFile) name = none := by
  rw [stop_truthy_pidFile h]
  simp [load_state, save_state, Registry.get_erase]

theorem stop_scripts (w : World) (o : StopOracle) (name : String) :
    (stop w o name).1.scripts = w.scripts := by
  by_cases h : pyTruthy (Registry.get (load_state w.pidFile) name) = true <;>
    simp [stop, h]

theorem stop_logFiles (w : World) (o : StopOracle) (name : String) :
    (stop w o name).1.logFiles = w.logFiles := by
  by_cases h : pyTruthy (Registry.get (load_state w.pidFile) name) = true <;>
    simp [stop, h]

/-! ### `delete_script` phase lemmas -/

theorem remove_script_file_pidFile (w : World) (n : String) :
    (remove_script_file w n).pidFile = w.pidFile := by
  unfold remove_script_file; split <;> rfl

theorem remove_script_file_logFiles (w : World) (n : String) :
    (remove_script_file w n).logFiles = w.logFiles := by
  unfold remove_script_file; split <;> rfl

theorem remove_script_file_not_mem (w : World) (n : String) :
    n ∉ (remove_script_file w n).scripts := by
  by_cases h : n ∈ w.scripts
  · simp only [remove_script_file, if_pos h]
    intro hcon
    have h2 := (List.mem_filter.1 hcon).2
    simp at h2
  · simp only [remove_script_file, if_neg h]
    exact h

theorem load_save (r : Registry) : load_state (save_state r) = r := rfl

theorem remove_log_file_pidFile (w : World) (n : String) :
    (remove_log_file w n).pidFile = w.pidFile := by
  by_cases h : (n ++ (".log")) ∈ w.logFiles <;> simp [remove_log_file, h]

theorem remove_log_file_scripts (w : World) (n : String) :
    (remove_log_file w n).scripts = w.scripts := by
  by_cases h : (n ++ (".log")) ∈ w.logFiles <;> simp [remove_log_file, h]

theorem remove_log_file_not_mem (w : World) (n : String) :
    (n ++ (".log")) ∉ (remove_log_file w n).logFiles := by
  by_cases h : (n ++ (".log")) ∈ w.logFiles
  · simp only [remove_log_file, if_pos h]
    intro hcon
    have h2 := (List.mem_filter.1 hcon).2
    simp at h2
  · simp only [remove_log_file, if_neg h]
    exact h

theorem registry_cleanup_get (w : World) (n : String) :
    Registry.get (load_state (registry_cleanup w n).pidFile) n = none := by
  by_cases h : (Registry.get (load_state w.pidFile) n).isSome = true
  · simp [registry_cleanup, h, load_save, Registry.get_erase]
  · simp [registry_cleanup, h]
    cases hc : Registry.get (load_state w.pidFile) n with
    | none => rfl
    | some v => rw [hc] at h; simp at h

theorem registry_cleanup_scripts (w : World) (n : String) :
    (registry_cleanup w n).scripts = w.scripts := by
  by_cases h : (Registry.get (load_state w.pidFile) n).isSome = true <;>
    simp [registry_cleanup, h]

theorem registry_cleanup_logFiles (w : World) (n : String) :
    (registry_cleanup w n).logFiles = w.logFiles := by
  by_cases h : (Registry.get (load_state w.pidFile) n).isSome = true <;>
    simp [registry_cleanup, h]

theorem remove_script_file_acts_spec (w : World) (n : String) :
    ∀ a ∈ remove_script_file_acts w n, a = Act.rmScript n := by
  by_cases h : n ∈ w.scripts <;> simp [remove_script_file_acts, h]

theorem remove_log_file_acts_spec (w : World) (n : String) :
    ∀ a ∈ remove_log_file_acts w n, a = Act.rmLog n := by
  by_cases h : (n ++ (".log")) ∈ w.logFiles <;> simp [remove_log_file_acts, h]

theorem registry_cleanup_acts_spec (w : World) (n : String) :
    ∀ a ∈ registry_cleanup_acts w n, a = Act.rmEntry n ∨ a = Act.save := by
  by_cases h : (Registry.get (load_state w.pidFile) n).isSome = true <;>
    simp [registry_cleanup_acts, h]

/-! ### Claim theorems -/

/-- C1 (amended): for every registry entry whose script appears in the scripts
directory listing, stores a nonzero pid, and whose pid does not exist on the
OS, the `index` status-read reports that script as `Stopped`, removes the entry
from the mapping, and persists the pruned mapping back to the registry file.
(The `logs` status-read reports `Stopped` but neither removes nor persists, and
entries for unlisted scripts or with falsy stored pids are not pruned — see the
counterexample.) -/
theorem index_self_heals (w : World) (f : String) (p : Int)
    (hs : f ∈ w.scripts) (he : endsWithPy f = true)
    (hp : Registry.get (load_state w.pidFile) f = some p) (hp0 : p ≠ 0)
    (hos : w.os p = none) :
    (⟨f, ("Stopped"), some p, 0, 0⟩ : Row) ∈ (index w).1
      ∧ (∃ m : Registry, (index w).2.pidFile = save_state m
          ∧ Registry.get m f = none) := by
  have hf := mem_script_files hs he
  constructor
  · have h := reconcile_row_mem w.os _ (load_state w.pidFile) [] f hf
    have hrow : rowOf w.os f (Registry.get (load_state w.pidFile) f)
        = ⟨f, ("Stopped"), some p, 0, 0⟩ := by
      rw [hp]
      simp [rowOf, pyTruthy, hp0, get_process_info, hos]
    rw [hrow] at h
    exact h
  · refine ⟨_, rfl, ?_⟩
    rw [reconcile_fst_get]
    simp [hf, stale, hp, pyTruthy, hp0, get_process_info, hos]

/-- Witness for `index_self_heals`, at the scenario of §8 of the spec:
registry `{"job.py": 4821}`, no OS process at all. -/
theorem index_self_heals_witness :
    (⟨("job.py"), ("Stopped"), some 4821, 0, 0⟩ : Row)
        ∈ (index ⟨some (some [(("job.py"), 4821)]), (fun _ => none),
            [("job.py")], []⟩).1
      ∧ (∃ m : Registry,
          (index ⟨some (some [(("job.py"), 4821)]), (fun _ => none),
              [("job.py")], []⟩).2.pidFile = save_state m
            ∧ Registry.get m ("job.py") = none) :=
  index_self_heals _ ("job.py") 4821 (by decide) (by decide) (by decide)
    (by decide) rfl

/-- C1 counterexample: the claim fails as stated.  With registry
`{"job.py": 4821}` and no live OS process, the `logs` status-read reports the
script as `Stopped` but leaves the registry file untouched (the entry is not
removed and nothing is persisted).  Moreover `index` does not prune an entry
whose script is missing from the directory listing (`ghost.py`), nor one whose
stored pid is the falsy `0` (`z.py`), even though neither pid corresponds to an
existing OS process. -/
theorem logs_read_does_not_prune :
    (logs ⟨some (some [(("job.py"), 4821)]), (fun _ => none),
        [("job.py")], []⟩).2.pidFile = some (some [(("job.py"), 4821)])
      ∧ (⟨("job.py"), ("Stopped"), some 4821, 0, 0⟩ : Row)
          ∈ (logs ⟨some (some [(("job.py"), 4821)]), (fun _ => none),
              [("job.py")], []⟩).1
      ∧ (index ⟨some (some [(("ghost.py"), 77)]), (fun _ => none),
          [], []⟩).2.pidFile = some (some [(("ghost.py"), 77)])
      ∧ (index ⟨some (some [(("z.py"), 0)]), (fun _ => none),
          [("z.py")], []⟩).2.pidFile = some (some [(("z.py"), 0)]) := by
  decide

/-- C2 (amended): for every identity whose registry entry stores a truthy
(nonzero) pid, `stop` removes the entry and persists the shrunken registry,
regardless of whether the graceful or forced signal delivery succeeds or fails
(the theorem holds for every `StopOracle`, and `stop` has no error outcome:
the bare `except: pass` swallows every signal-delivery error).  An entry whose
stored pid is falsy is left in place — see the counterexample. -/
theorem stop_always_cleans (w : World) (o : StopOracle) (name : String) (p : Int)
    (hp : Registry.get (load_state w.pidFile) name = some p) (hp0 : p ≠ 0) :
    (stop w o name).1.pidFile
        = save_state (Registry.erase (load_state w.pidFile) name)
      ∧ Registry.get (load_state (stop w o name).1.pidFile) name = none := by
  have ht : pyTruthy (Registry.get (load_state w.pidFile) name) = true := by
    rw [hp]; exact pyTruthy_some_iff.2 hp0
  exact ⟨stop_truthy_pidFile ht, stop_get_none ht⟩

/-- Witness for `stop_always_cleans` with a failing SIGTERM delivery. -/
theorem stop_always_cleans_witness :
    (stop ⟨some (some [(("a.py"), 5)]), (fun _ => none), [("a.py")], []⟩
        ⟨false, true⟩ ("a.py")).1.pidFile
        = save_state (Registry.erase (load_state (some (some [(("a.py"), 5)])))
            ("a.py"))
      ∧ Registry.get (load_state
          (stop ⟨some (some [(("a.py"), 5)]), (fun _ => none), [("a.py")], []⟩
            ⟨false, true⟩ ("a.py")).1.pidFile) ("a.py") = none :=
  stop_always_cleans _ _ ("a.py") 5 (by decide) (by decide)

/-- C2 counterexample: after `stop` completes on `a.py`, whose entry stores the
falsy pid `0`, the registry still contains the entry — `stop` is not
unconditionally followed by state cleanup. -/
theorem stop_keeps_falsy_entry :
    Registry.get (load_state
        (stop ⟨some (some [(("a.py"), 0)]), (fun _ => none), [("a.py")], []⟩
          ⟨true, true⟩ ("a.py")).1.pidFile) ("a.py") = some 0 := by
  decide

/-- C3 (amended): for every registry entry with a truthy (nonzero) stored pid,
when the graceful SIGTERM delivery returns normally `stop` waits the 1-second
grace period and then sends SIGKILL if and only if the process still exists
after the grace period; when the SIGTERM delivery raises, the wait and the
forced kill are both skipped (the bare `except` aborts the protocol) and the
entry is cleaned up directly. -/
theorem stop_escalation_protocol (w : World) (o : StopOracle) (name : String)
    (p : Int)
    (hp : Registry.get (load_state w.pidFile) name = some p) (hp0 : p ≠ 0) :
    (o.sigtermOk = true →
        (stop w o name).2
          = Act.sigterm p :: Act.sleep1 ::
              ((if o.existsAfterGrace then [Act.sigkill p] else [])
                ++ [Act.rmEntry name, Act.save]))
      ∧ (o.sigtermOk = false →
        (stop w o name).2 = [Act.sigterm p, Act.rmEntry name, Act.save]) := by
  constructor <;> intro hterm <;> rw [stop_truthy_trace hp hp0] <;> simp [hterm]

/-- Witness for `stop_escalation_protocol`: successful SIGTERM, process gone
after the grace period, so no SIGKILL is attempted. -/
theorem stop_escalation_protocol_witness :
    (stop ⟨some (some [(("a.py"), 5)]), (fun _ => none), [("a.py")], []⟩
        ⟨true, false⟩ ("a.py")).2
      = Act.sigterm 5 :: Act.sleep1 ::
          ((if (false : Bool) then [Act.sigkill 5] else [])
            ++ [Act.rmEntry ("a.py"), Act.save]) :=
  (stop_escalation_protocol _ ⟨true, false⟩ ("a.py") 5 (by decide) (by decide)).1
    rfl

/-- C3 counterexample: when the SIGTERM delivery raises (e.g. `EPERM`, with the
process still alive after the grace period, `existsAfterGrace = true`), `stop`
neither waits the 1-second grace period nor sends the forced kill — the trace
records only the SIGTERM attempt and the cleanup, refuting the claimed
unconditional wait-then-kill-iff-alive protocol. -/
theorem stop_skips_grace_wait :
    (stop ⟨some (some [(("a.py"), 5)]), (fun _ => none), [("a.py")], []⟩
        ⟨false, true⟩ ("a.py")).2
        = [Act.sigterm 5, Act.rmEntry ("a.py"), Act.save]
      ∧ Act.sleep1 ∉ (stop ⟨some (some [(("a.py"), 5)]), (fun _ => none),
          [("a.py")], []⟩ ⟨false, true⟩ ("a.py")).2
      ∧ Act.sigkill 5 ∉ (stop ⟨some (some [(("a.py"), 5)]), (fun _ => none),
          [("a.py")], []⟩ ⟨false, true⟩ ("a.py")).2 := by
  decide

/-- C4 (amended): `load_state` never fails the caller; a missing registry file
or one whose content fails to parse loads as the empty mapping; content that
does parse is returned exactly as parsed — even when the parsed document is not
a mapping at all (see the counterexample). -/
theorem load_state_lossy_recovery :
    load_state_json none = Json.obj []
      ∧ load_state_json (some none) = Json.obj []
      ∧ (∀ j, load_state_json (some (some j)) = j)
      ∧ load_state none = [] ∧ load_state (some none) = [] :=
  ⟨rfl, rfl, fun _ => rfl, rfl, rfl⟩

/-- C4 counterexample: a registry file holding `[]` — valid JSON, but invalid
as a registry because it is not a mapping — is passed through by `load_state`
as the parsed array instead of being replaced by the empty mapping; only a
parse *failure* triggers the empty-mapping recovery. -/
theorem load_state_passes_through_nonmapping :
    load_state_json (some (some (Json.arr []))) = Json.arr []
      ∧ Json.arr [] ≠ Json.obj [] :=
  ⟨rfl, fun h => Json.noConfusion h⟩

/-- C5: a registry entry whose process is a zombie is reported by the `index`
status-read as `Zombie` with CPU and memory both zero, and the entry is not
removed: it is still present in the mapping persisted at the end of the
pass. -/
theorem index_preserves_zombie (w : World) (f : String) (p : Int)
    (hs : f ∈ w.scripts) (he : endsWithPy f = true)
    (hp : Registry.get (load_state w.pidFile) f = some p) (hp0 : p ≠ 0)
    (hos : w.os p = some OSProc.zombie) :
    (⟨f, ("Zombie"), some p, 0, 0⟩ : Row) ∈ (index w).1
      ∧ (∃ m : Registry, (index w).2.pidFile = save_state m
          ∧ Registry.get m f = some p) := by
  have hf := mem_script_files hs he
  constructor
  · have h := reconcile_row_mem w.os _ (load_state w.pidFile) [] f hf
    have hrow : rowOf w.os f (Registry.get (load_state w.pidFile) f)
        = ⟨f, ("Zombie"), some p, 0, 0⟩ := by
      rw [hp]
      simp [rowOf, pyTruthy, hp0, get_process_info, hos]
    rw [hrow] at h
    exact h
  · refine ⟨_, rfl, ?_⟩
    rw [reconcile_fst_get]
    have h2 : (get_process_info w.os ((some p : Option Int).getD 0)).1
        = ("Zombie") := by
      simp [get_process_info, hos]
    have hnst : ¬ stale w.os (some p) := by
      intro hcon
      have h3 := hcon.2
      rw [h2] at h3
      exact absurd h3 (by decide)
    simp [hp, hnst]

/-- Witness for `index_preserves_zombie`: one script whose recorded process is
a zombie. -/
theorem index_preserves_zombie_witness :
    (⟨("job.py"), ("Zombie"), some 9, 0, 0⟩ : Row)
        ∈ (index ⟨some (some [(("job.py"), 9)]),
            (fun q => if q = 9 then some OSProc.zombie else none),
            [("job.py")], []⟩).1
      ∧ (∃ m : Registry,
          (index ⟨some (some [(("job.py"), 9)]),
              (fun q => if q = 9 then some OSProc.zombie else none),
              [("job.py")], []⟩).2.pidFile = save_state m
            ∧ Registry.get m ("job.py") = some 9) :=
  index_preserves_zombie _ ("job.py") 9 (by decide) (by decide) (by decide)
    (by decide) (by decide)

/-- C6: if `subprocess.Popen` fails during `start` (and the already-running
guard of line 118 did not fire), the exception propagates to the caller — there
is no `try` around the spawn — and the registry file is left exactly as it was:
no entry is recorded for a process that was never created.  The
`spawnAttempted` flag records that the failure indeed came from the spawn. -/
theorem start_spawn_failure (w : World) (name : String)
    (hnr : ∀ p, Registry.get (load_state w.pidFile) name = some p →
      (get_process_info w.os p).1 ≠ ("Running")) :
    (start w SpawnResult.err name).outcome = StartOutcome.raised
      ∧ (start w SpawnResult.err name).world.pidFile = w.pidFile
      ∧ (start w SpawnResult.err name).spawnAttempted = true := by
  have hrun : already_running w.os (load_state w.pidFile) name = false := by
    unfold already_running
    cases hg : Registry.get (load_state w.pidFile) name with
    | none => rfl
    | some p =>
      have hne := hnr p hg
      simp [hne]
  refine ⟨?_, ?_, ?_⟩ <;> simp [start, hrun]

/-- Witness for `start_spawn_failure`: the registry knows a pid that no longer
exists, so the guard does not fire, and the spawn failure surfaces. -/
theorem start_spawn_failure_witness :
    (start ⟨some (some [(("a.py"), 3)]), (fun _ => none), [("a.py")], []⟩
        SpawnResult.err ("a.py")).outcome = StartOutcome.raised
      ∧ (start ⟨some (some [(("a.py"), 3)]), (fun _ => none), [("a.py")], []⟩
          SpawnResult.err ("a.py")).world.pidFile = some (some [(("a.py"), 3)])
      ∧ (start ⟨some (some [(("a.py"), 3)]), (fun _ => none), [("a.py")], []⟩
          SpawnResult.err ("a.py")).spawnAttempted = true :=
  start_spawn_failure _ ("a.py") (by
    intro p h
    have h2 : (some 3 : Option Int) = some p := h
    have h3 : (3 : Int) = p := Option.some.inj h2
    subst h3
    decide)

/-- C7 (amended): calling `stop` twice in a row never errors (stop has no error
outcome at all) and the second call is a strict no-op; the registry entry is
absent after both calls provided the first call found either no entry or an
entry with a truthy (nonzero) pid.  In particular `stop` on an identity with no
registry entry is a no-op.  (An entry storing a falsy pid survives both calls —
see the counterexample.) -/
theorem stop_idempotent (w : World) (o1 o2 : StopOracle) (name : String)
    (h : Registry.get (load_state w.pidFile) name = none
      ∨ ∃ p, Registry.get (load_state w.pidFile) name = some p ∧ p ≠ 0) :
    Registry.get (load_state (stop (stop w o1 name).1 o2 name).1.pidFile) name
        = none
      ∧ stop (stop w o1 name).1 o2 name = ((stop w o1 name).1, []) := by
  rcases h with h | ⟨p, hp, hp0⟩
  · have h0 : pyTruthy (Registry.get (load_state w.pidFile) name) = false := by
      rw [h]; rfl
    have e1 : (stop w o1 name).1 = w := by rw [stop_noop h0]
    rw [e1, @stop_noop w o2 name h0]
    exact ⟨h, rfl⟩
  · have ht : pyTruthy (Registry.get (load_state w.pidFile) name) = true := by
      rw [hp]; exact pyTruthy_some_iff.2 hp0
    have hg : Registry.get (load_state (stop w o1 name).1.pidFile) name = none :=
      stop_get_none ht
    have h0 : pyTruthy
        (Registry.get (load_state (stop w o1 name).1.pidFile) name) = false := by
      rw [hg]; rfl
    refine ⟨?_, stop_noop h0⟩
    rw [stop_noop h0]
    exact hg

/-- Witness for `stop_idempotent` on an entry with a truthy pid. -/
theorem stop_idempotent_witness :
    Registry.get (load_state
        (stop (stop ⟨some (some [(("a.py"), 5)]), (fun _ => none), [("a.py")], []⟩
            ⟨true, false⟩ ("a.py")).1 ⟨true, false⟩ ("a.py")).1.pidFile) ("a.py")
        = none
      ∧ stop (stop ⟨some (some [(("a.py"), 5)]), (fun _ => none), [("a.py")], []⟩
            ⟨true, false⟩ ("a.py")).1 ⟨true, false⟩ ("a.py")
        = ((stop ⟨some (some [(("a.py"), 5)]), (fun _ => none), [("a.py")], []⟩
            ⟨true, false⟩ ("a.py")).1, []) :=
  stop_idempotent _ ⟨true, false⟩ ⟨true, false⟩ ("a.py")
    (Or.inr ⟨5, by decide, by decide⟩)

/-- C7 counterexample: two consecutive `stop` calls on `b.py`, whose entry
stores the falsy pid `0`, leave the entry present — the registry entry is not
absent after both calls. -/
theorem stop_twice_keeps_falsy_entry :
    Registry.get (load_state
        (stop (stop ⟨some (some [(("b.py"), 0)]), (fun _ => none), [("b.py")], []⟩
            ⟨true, true⟩ ("b.py")).1 ⟨true, true⟩ ("b.py")).1.pidFile) ("b.py")
      = some 0 := by
  decide

/-- C8: when the registry already has an entry for the identity and the OS
query reports its process `Running`, `start` is a total no-op: the world (in
particular the registry file) is unchanged, control returns normally, and
`subprocess.Popen` is never invoked. -/
theorem start_noop_when_running (w : World) (spawn : SpawnResult) (name : String)
    (p : Int)
    (hp : Registry.get (load_state w.pidFile) name = some p)
    (hr : (get_process_info w.os p).1 = ("Running")) :
    start w spawn name = ⟨w, StartOutcome.redirect, false⟩ := by
  have hrun : already_running w.os (load_state w.pidFile) name = true := by
    unfold already_running
    simp [hp, hr]
  simp [start, hrun]

/-- Witness for `start_noop_when_running`: pid 7 is alive, so even a spawn
that would fail is never attempted. -/
theorem start_noop_when_running_witness :
    start ⟨some (some [(("a.py"), 7)]),
        (fun q => if q = 7 then some (OSProc.running 1 2) else none),
        [("a.py")], []⟩ SpawnResult.err ("a.py")
      = ⟨⟨some (some [(("a.py"), 7)]),
          (fun q => if q = 7 then some (OSProc.running 1 2) else none),
          [("a.py")], []⟩, StartOutcome.redirect, false⟩ :=
  start_noop_when_running _ SpawnResult.err ("a.py") 7 (by decide) (by decide)

/-- C9: `delete_script` composes its phases in order — first the full `stop`
protocol (its trace is the prefix of the delete trace), then removal of the
script file and of its log file, then removal of any residual registry entry —
and afterwards the registry contains no entry for the identity, the script file
is gone from the scripts directory, and its log file is gone from the logs
directory. -/
theorem delete_script_spec (w : World) (o : StopOracle) (name : String) :
    Registry.get (load_state (delete_script w o name).1.pidFile) name = none
      ∧ name ∉ (delete_script w o name).1.scripts
      ∧ (name ++ (".log")) ∉ (delete_script w o name).1.logFiles
      ∧ (∃ fileActs regActs,
          (delete_script w o name).2
              = (stop w o name).2 ++ fileActs ++ regActs
            ∧ (∀ a ∈ fileActs, a = Act.rmScript name ∨ a = Act.rmLog name)
            ∧ (∀ a ∈ regActs, a = Act.rmEntry name ∨ a = Act.save)) := by
  refine ⟨registry_cleanup_get _ _, ?_, ?_, ?_⟩
  · have h2 := remove_script_file_not_mem (stop w o name).1 name
    simp only [delete_script, registry_cleanup_scripts, remove_log_file_scripts]
    exact h2
  · have h3 := remove_log_file_not_mem
      (remove_script_file (stop w o name).1 name) name
    simp only [delete_script, registry_cleanup_logFiles]
    exact h3
  · refine ⟨remove_script_file_acts (stop w o name).1 name
        ++ remove_log_file_acts (remove_script_file (stop w o name).1 name) name,
      registry_cleanup_acts
        (remove_log_file (remove_script_file (stop w o name).1 name) name) name,
      ?_, ?_, ?_⟩
    · simp [delete_script, List.append_assoc]
    · intro a ha
      rcases List.mem_append.1 ha with hl | hr
      · exact Or.inl (remove_script_file_acts_spec _ _ a hl)
      · exact Or.inr (remove_log_file_acts_spec _ _ a hr)
    · exact registry_cleanup_acts_spec _ _

/-- C10: a registry entry whose stored pid is falsy (`0`; a stored JSON `null`
behaves identically under Python truthiness) is treated by every operation as
if no process were recorded.  The `index` status-read reports `Stopped` without
consulting the OS (the theorem holds for every OS table `w.os`) yet the entry
survives the persist step; the `logs` read reports `Stopped` and changes
nothing; `stop` sends no signals and leaves the world untouched; only
`delete_script` removes the entry. -/
theorem falsy_pid_entry_behaviour (w : World) (o : StopOracle) (f : String)
    (hs : f ∈ w.scripts) (he : endsWithPy f = true)
    (hp : Registry.get (load_state w.pidFile) f = some 0) :
    (⟨f, ("Stopped"), none, 0, 0⟩ : Row) ∈ (index w).1
      ∧ (∃ m : Registry, (index w).2.pidFile = save_state m
          ∧ Registry.get m f = some 0)
      ∧ (⟨f, ("Stopped"), none, 0, 0⟩ : Row) ∈ (logs w).1
      ∧ (logs w).2 = w
      ∧ stop w o f = (w, [])
      ∧ Registry.get (load_state (delete_script w o f).1.pidFile) f = none := by
  have hf := mem_script_files hs he
  have ht : pyTruthy (Registry.get (load_state w.pidFile) f) = false := by
    rw [hp]; rfl
  refine ⟨?_, ⟨_, rfl, ?_⟩, ?_, rfl, stop_noop ht, registry_cleanup_get _ _⟩
  · have h := reconcile_row_mem w.os _ (load_state w.pidFile) [] f hf
    have hrow : rowOf w.os f (Registry.get (load_state w.pidFile) f)
        = ⟨f, ("Stopped"), none, 0, 0⟩ := by
      rw [hp]; simp [rowOf, pyTruthy]
    rw [hrow] at h
    exact h
  · rw [reconcile_fst_get]
    have hnst : ¬ stale w.os (some 0) := by
      intro hcon
      have h1 := hcon.1
      simp [pyTruthy] at h1
    simp [hp, hnst]
  · have h := List.mem_map_of_mem (logsRow w.os (load_state w.pidFile)) hf
    have hrow : logsRow w.os (load_state w.pidFile) f
        = ⟨f, ("Stopped"), none, 0, 0⟩ := by
      simp [logsRow, hp, pyTruthy]
    rw [hrow] at h
    exact h

/-- Witness for `falsy_pid_entry_behaviour` on registry `{"a.py": 0}`. -/
theorem falsy_pid_entry_behaviour_witness :
    (⟨("a.py"), ("Stopped"), none, 0, 0⟩ : Row)
        ∈ (index ⟨some (some [(("a.py"), 0)]), (fun _ => none),
            [("a.py")], []⟩).1
      ∧ (∃ m : Registry,
          (index ⟨some (some [(("a.py"), 0)]), (fun _ => none),
              [("a.py")], []⟩).2.pidFile = save_state m
            ∧ Registry.get m ("a.py") = some 0)
      ∧ (⟨("a.py"), ("Stopped"), none, 0, 0⟩ : Row)
          ∈ (logs ⟨some (some [(("a.py"), 0)]), (fun _ => none),
              [("a.py")], []⟩).1
      ∧ (logs ⟨some (some [(("a.py"), 0)]), (fun _ => none),
          [("a.py")], []⟩).2
          = ⟨some (some [(("a.py"), 0)]), (fun _ => none), [("a.py")], []⟩
      ∧ stop ⟨some (some [(("a.py"), 0)]), (fun _ => none), [("a.py")], []⟩
            ⟨true, true⟩ ("a.py")
          = (⟨some (some [(("a.py"), 0)]), (fun _ => none), [("a.py")], []⟩, [])
      ∧ Registry.get (load_state
          (delete_script ⟨some (some [(("a.py"), 0)]), (fun _ => none),
              [("a.py")], []⟩ ⟨true, true⟩ ("a.py")).1.pidFile) ("a.py")
          = none :=
  falsy_pid_entry_behaviour _ ⟨true, true⟩ ("a.py") (by decide) (by decide)
    (by decide)
